import Mathlib

/-!
Verification development for the meeting-recorder browser extension.

The definitions below are a shallow embedding of the recording lifecycle
coordinator and the storage/sync layer:

* `startRecording`, `pauseRecording`, `resumeRecording`, `stopRecording`,
  `getDuration`, `getStatus`, `handleRecordingData` embed the
  `RecordingManager` class of `services/recording-manager.js`
  (the class concatenated into `src/ui/popup.js`);
* `bgStartRecording` embeds the `RecordingManager.startRecording` of
  `src/background.js` (badge + tab-indicator variant, no pause support);
* `syncPendingRecordings`, `addRecording`, `addLocalRecording`,
  `replaceFirstById` embed `services/storage-manager.js`;
* `popupStartRecording` embeds the option guard of
  `PopupController.startRecording` in `ui/popup.js`.

Timestamps are naturals (milliseconds since epoch); durations are integers
(seconds, `Math.floor` division embedded as `Int.fdiv`).  Media blobs and
abstract metadata values are naturals.  A remote upload is an environment function
`Rec → Option SRec`: `some sr` is a successful upload answering with the
server-assigned record `sr`; `none` covers every failure mode the code
treats alike (thrown network/auth error or a `success:false` response).
-/

namespace MeetingRecorder

/-! ## Capture options and commands -/

inductive Quality
  | low
  | medium
  | high
deriving DecidableEq, Repr

/-- The options object handed to `startRecording`; every field may be absent
(JS `undefined`), in which case the code substitutes a default with `||`. -/
structure RecOptions where
  includeScreen : Option Bool
  includeAudio : Option Bool
  includeSystemAudio : Option Bool
  videoQuality : Option Quality
  audioQuality : Option Quality
deriving DecidableEq, Repr

/-- The fully-defaulted options actually sent in the `START_CAPTURE` message:
`options.includeScreen || false`, …, `options.videoQuality || "medium"`. -/
structure CaptureOptions where
  includeScreen : Bool
  includeAudio : Bool
  includeSystemAudio : Bool
  videoQuality : Quality
  audioQuality : Quality
deriving DecidableEq, Repr

def defaultedOptions (o : RecOptions) : CaptureOptions :=
  { includeScreen := o.includeScreen.getD false
    includeAudio := o.includeAudio.getD false
    includeSystemAudio := o.includeSystemAudio.getD false
    videoQuality := o.videoQuality.getD Quality.medium
    audioQuality := o.audioQuality.getD Quality.medium }

/-- Commands the coordinator sends to the offscreen capture surface. -/
inductive CaptureCmd
  | startCapture (opts : CaptureOptions)
  | pauseCapture
  | resumeCapture
  | stopCapture
deriving DecidableEq, Repr

/-! ## RecordingManager state (services/recording-manager.js) -/

/-- The mutable fields of the `RecordingManager` class that the lifecycle
methods read or write (`recordingData`, `mediaRecorder`, `stream` are
omitted: they are only ever reset to their empty values). -/
structure RMState where
  isRecording : Bool
  isPaused : Bool
  startTime : Option Nat
  pausedTime : Nat
deriving DecidableEq, Repr

/-- Constructor state. -/
def RMState.init : RMState :=
  { isRecording := false, isPaused := false, startTime := none, pausedTime := 0 }

/-- `cleanup()`: resets every session field to its idle default. -/
def cleanup (_s : RMState) : RMState := RMState.init

inductive RMError
  | alreadyRecording
  | offscreenFailed
  | captureFailed
  | noActiveToPause
  | noPausedToResume
  | noRecordingToStop
deriving DecidableEq, Repr

/-- Result of one coordinator method call: the state left behind, the
success flag and error of the returned object, the `startTime` echoed in a
successful start response, and the capture commands sent during the call. -/
structure RMResult where
  state : RMState
  ok : Bool
  error : Option RMError
  startTimeReturned : Option Nat
  cmds : List CaptureCmd
deriving DecidableEq, Repr

/-- `startRecording(options)`.  `now` is `Date.now()` at the call;
`offscreenOk` is whether `ensureOffscreenDocument()` succeeds; `captureOk`
is whether the awaited `START_CAPTURE` message resolves with
`{success:true}`.  Note that the `catch` block runs `this.cleanup()` on
*every* failure, including the AlreadyRecording guard rejection. -/
def startRecording (s : RMState) (opts : RecOptions) (now : Nat)
    (offscreenOk : Bool) (captureOk : Bool) : RMResult :=
  if s.isRecording then
    { state := cleanup s, ok := false, error := some RMError.alreadyRecording
      startTimeReturned := none, cmds := [] }
  else if !offscreenOk then
    { state := cleanup s, ok := false, error := some RMError.offscreenFailed
      startTimeReturned := none, cmds := [] }
  else
    let s1 : RMState := { s with pausedTime := 0, startTime := some now }
    let cmd := CaptureCmd.startCapture (defaultedOptions opts)
    if captureOk then
      { state := { s1 with isRecording := true, isPaused := false }
        ok := true, error := none, startTimeReturned := some now, cmds := [cmd] }
    else
      { state := cleanup s1, ok := false, error := some RMError.captureFailed
        startTimeReturned := none, cmds := [cmd] }

/-- `pauseRecording()`: guard `!isRecording || isPaused`, send
`PAUSE_CAPTURE`, set `isPaused = true`.  `pausedTime` is *not* touched. -/
def pauseRecording (s : RMState) : RMResult :=
  if !s.isRecording || s.isPaused then
    { state := s, ok := false, error := some RMError.noActiveToPause
      startTimeReturned := none, cmds := [] }
  else
    { state := { s with isPaused := true }, ok := true, error := none
      startTimeReturned := none, cmds := [CaptureCmd.pauseCapture] }

/-- `resumeRecording()`: guard `!isRecording || !isPaused`, send
`RESUME_CAPTURE`, set `isPaused = false`.  `pausedTime` is *not* touched. -/
def resumeRecording (s : RMState) : RMResult :=
  if !s.isRecording || !s.isPaused then
    { state := s, ok := false, error := some RMError.noPausedToResume
      startTimeReturned := none, cmds := [] }
  else
    { state := { s with isPaused := false }, ok := true, error := none
      startTimeReturned := none, cmds := [CaptureCmd.resumeCapture] }

/-- `stopRecording()`: guard `!isRecording` (the catch runs `cleanup()`),
send `STOP_CAPTURE`, clear `isRecording`/`isPaused`.  `startTime` and
`pausedTime` survive until `handleRecordingData` runs `cleanup()`. -/
def stopRecording (s : RMState) : RMResult :=
  if !s.isRecording then
    { state := cleanup s, ok := false, error := some RMError.noRecordingToStop
      startTimeReturned := none, cmds := [] }
  else
    { state := { s with isRecording := false, isPaused := false }
      ok := true, error := none, startTimeReturned := none
      cmds := [CaptureCmd.stopCapture] }

/-- `getDuration()`:
`const now = this.isRecording ? new Date() : this.startTime;`
`return Math.floor((now - this.startTime) / 1000) - this.pausedTime;` -/
def getDuration (s : RMState) (now : Nat) : Int :=
  match s.startTime with
  | none => 0
  | some st =>
    let n : Nat := if s.isRecording then now else st
    ((n : Int) - (st : Int)).fdiv 1000 - (s.pausedTime : Int)

/-- The object returned by `getStatus()`. -/
structure StatusReply where
  isRecording : Bool
  isPaused : Bool
  startTime : Option Nat
  duration : Int
deriving DecidableEq, Repr

def getStatus (s : RMState) (now : Nat) : StatusReply :=
  { isRecording := s.isRecording, isPaused := s.isPaused
    startTime := s.startTime, duration := getDuration s now }

/-! ### startRecording split at its `await` points

The method body performs, in order: the AlreadyRecording guard (no state
write), `await this.ensureOffscreenDocument()`, the state resets
(`recordingData = []; pausedTime = 0; startTime = new Date()`),
`await chrome.runtime.sendMessage(START_CAPTURE)`, and only
then `isRecording = true; isPaused = false`.  Each segment below is the
synchronous code between two suspension points. -/

/-- Segment before the first `await`: only the guard runs; no session field
is written.  `none` means the call was rejected with AlreadyRecording. -/
def startSeg0 (s : RMState) : Option RMState :=
  if s.isRecording then none else some s

/-- Segment between the offscreen `await` and the capture `await`. -/
def startSeg1 (s : RMState) (now : Nat) : RMState :=
  { s with pausedTime := 0, startTime := some now }

/-- Segment after the capture `await` resolves successfully. -/
def startSeg2 (s : RMState) : RMState :=
  { s with isRecording := true, isPaused := false }

/-! ## background.js RecordingManager (badge / tab-indicator variant) -/

/-- Observer-visible state of the `background.js` manager: the in-memory
flag, the session start time, and the extension badge text. -/
structure BGState where
  isRecording : Bool
  startTime : Option Nat
  badge : String
deriving DecidableEq, Repr

def BGState.init : BGState := { isRecording := false, startTime := none, badge := "" }

/-- Events emitted towards observers / the capture surface during a
`background.js` call: the broadcast `updateRecordingStatus` message sent to
every tab, and the fire-and-forget `startCapture` message. -/
inductive BGEvent
  | notifyTabs (isRecording : Bool)
  | sendStartCapture (opts : CaptureOptions)
deriving DecidableEq, Repr

/-- `background.js` `startRecording(options)`.  On any failure (including
the AlreadyRecording guard) the catch block sets `isRecording = false`,
clears the badge and broadcasts `updateRecordingStatus:false` to all tabs. -/
def bgStartRecording (s : BGState) (opts : RecOptions) (now : Nat)
    (offscreenOk : Bool) : BGState × Bool × List BGEvent :=
  if s.isRecording then
    ({ s with isRecording := false, badge := "" }, false, [BGEvent.notifyTabs false])
  else if !offscreenOk then
    ({ s with isRecording := false, badge := "" }, false, [BGEvent.notifyTabs false])
  else
    ({ s with isRecording := true, startTime := some now, badge := "REC" },
     true,
     [BGEvent.notifyTabs true, BGEvent.sendStartCapture (defaultedOptions opts)])

/-- `background.js` `startRecording` up to its first `await`
(`ensureOffscreenDocument()`): only the guard runs, nothing is written. -/
def bgStartSeg0 (s : BGState) : Option BGState :=
  if s.isRecording then none else some s

/-! ## Persisted records and the storage manager -/

/-- A server-side recording as returned by `POST /recordings/upload`
(`result.recording`): JSON metadata only, it carries no media payload. -/
structure SRec where
  id : Nat
  meta : Nat
deriving DecidableEq, Repr

/-- A persisted recording record.  `payload` models the retained media
(`blob` in `services/*`, `data` in `background.js`); absent JS fields read
as falsy, hence `needsSync`/`isLocal` default to `false` and `payload` to
`none` for server records. -/
structure Rec where
  id : Nat
  needsSync : Bool
  isLocal : Bool
  payload : Option Nat
  meta : Nat
deriving DecidableEq, Repr

/-- The in-place replacement written by `syncPendingRecordings`:
`{...uploadResult.recording, needsSync:false, isLocal:false}` followed by
`delete updatedLocalRecordings[recordingIndex].blob`. -/
def markedRec (sr : SRec) : Rec :=
  { id := sr.id, needsSync := false, isLocal := false, payload := none, meta := sr.meta }

/-- The raw server record as stored by `addRecording(uploadResult.recording)`:
no `needsSync`/`isLocal`/`blob` fields, which read back as falsy. -/
def storedOfServer (sr : SRec) : Rec :=
  { id := sr.id, needsSync := false, isLocal := false, payload := none, meta := sr.meta }

/-- `StorageManager.addRecording`: `recordings.unshift(recording)` then
`recordings.slice(0, 100)`. -/
def addRecording (synced : List Rec) (r : Rec) : List Rec :=
  (r :: synced).take 100

/-- `StorageManager.addLocalRecording`: `localRecordings.unshift(recording)`
then `localRecordings.slice(0, 50)`. -/
def addLocalRecording (localRecs : List Rec) (r : Rec) : List Rec :=
  (r :: localRecs).take 50

/-- `updatedLocalRecordings.findIndex(r => r.id === recording.id)` followed
by assignment at that index when found (`recordingIndex !== -1`). -/
def replaceFirstById (l : List Rec) (i : Nat) (n : Rec) : List Rec :=
  match l with
  | [] => []
  | r :: rs => if r.id = i then n :: rs else r :: replaceFirstById rs i n

/-- `localRecordings.filter(r => r.needsSync)`. -/
def pendingOf (l : List Rec) : List Rec := l.filter (fun r => r.needsSync)

/-- Accumulator of the per-record sync loop: the working copy
`updatedLocalRecordings`, the synced (`recordings`) collection, and
`syncedCount`. -/
structure LoopState where
  updated : List Rec
  synced : List Rec
  count : Nat
deriving DecidableEq, Repr

/-- The `for (const recording of pendingRecordings)` loop of
`StorageManager.syncPendingRecordings`.  A `none` upload outcome is the
per-item `try/catch` swallowing the failure; a `some sr` outcome replaces
the local entry in place, appends the server record to the synced
collection (`this.addRecording`), and bumps the count. -/
def syncLoop (upload : Rec → Option SRec) : List Rec → LoopState → LoopState
  | [], st => st
  | r :: rest, st =>
    match upload r with
    | none => syncLoop upload rest st
    | some sr =>
        syncLoop upload rest
          { updated := replaceFirstById st.updated r.id (markedRec sr)
            synced := addRecording st.synced (storedOfServer sr)
            count := st.count + 1 }

/-- Outcome of `StorageManager.syncPendingRecordings`: final collections,
the returned `{success, synced}` object, the ids whose upload was attempted,
and the number of `chrome.storage.local.set` calls performed. -/
structure SyncOutcome where
  localRecs : List Rec
  synced : List Rec
  syncedCount : Nat
  success : Bool
  uploadsAttempted : List Nat
  storageWrites : Nat
deriving DecidableEq, Repr

/-- `StorageManager.syncPendingRecordings()`.  With no pending record it
returns `{success:true, synced:0}` before touching the network or storage;
otherwise it runs the loop (one storage write per successful
`addRecording`) and persists the full local collection in one final write. -/
def syncPendingRecordings (upload : Rec → Option SRec)
    (localRecs synced : List Rec) : SyncOutcome :=
  let pending := pendingOf localRecs
  if pending.isEmpty then
    { localRecs := localRecs, synced := synced, syncedCount := 0
      success := true, uploadsAttempted := [], storageWrites := 0 }
  else
    let st := syncLoop upload pending
      { updated := localRecs, synced := synced, count := 0 }
    { localRecs := st.updated, synced := st.synced, syncedCount := st.count
      success := true, uploadsAttempted := pending.map (fun r => r.id)
      storageWrites := st.count + 1 }

/-! ## Completion pipeline (handleRecordingData) -/

inductive UserNote
  | savedToCloud
  | savedLocally
  | recordingBroken
deriving DecidableEq, Repr

/-- Outcome of `RecordingManager.handleRecordingData`: the manager state
after `cleanup()`, both collections, the single notification emitted, and
the `duration` field written into the record metadata. -/
structure CompletionOutcome where
  rmState : RMState
  localRecs : List Rec
  synced : List Rec
  note : UserNote
  duration : Int
deriving DecidableEq, Repr

/-- `handleRecordingData({blob, mimeType, size})`.  It computes
`duration = this.getDuration()` on the post-stop state, attempts the
upload, and on failure builds
`{id: local-…, ...metadata, isLocal:true, needsSync:true, blob}` and
inserts it at the head of the local collection.  `freshLocalId` models the
generated `local-${Date.now()}` id. -/
def handleRecordingData (s : RMState) (now : Nat) (blob : Nat) (meta : Nat)
    (uploadOutcome : Option SRec) (freshLocalId : Nat)
    (localRecs synced : List Rec) : CompletionOutcome :=
  let d := getDuration s now
  match uploadOutcome with
  | some sr =>
    { rmState := cleanup s, localRecs := localRecs
      synced := addRecording synced (storedOfServer sr)
      note := UserNote.savedToCloud, duration := d }
  | none =>
    let newRec : Rec :=
      { id := freshLocalId, needsSync := true, isLocal := true
        payload := some blob, meta := meta }
    { rmState := cleanup s, localRecs := addLocalRecording localRecs newRec
      synced := synced, note := UserNote.savedLocally, duration := d }

/-! ## Popup option guard (ui/popup.js PopupController.startRecording) -/

inductive PopupStartAction
  | rejectedNoSource
  | sendStartMessage (includeScreen includeAudio includeSystemAudio : Bool)
deriving DecidableEq, Repr

/-- `if (!options.includeScreen && !options.includeAudio) { showMessage(…,
error); return; }` — the inline rejection happens in the popup observer,
before any message reaches the coordinator. -/
def popupStartRecording (includeScreen includeAudio includeSystemAudio : Bool) :
    PopupStartAction :=
  if !includeScreen && !includeAudio then
    PopupStartAction.rejectedNoSource
  else
    PopupStartAction.sendStartMessage includeScreen includeAudio includeSystemAudio

/-! ## Shared helper lemmas -/

lemma startRecording_eq_segments (s : RMState) (opts : RecOptions) (now : Nat)
    (h : startSeg0 s = some s) :
    (startRecording s opts now true true).state = startSeg2 (startSeg1 s now) := by
  cases hb : s.isRecording
  · simp [startRecording, startSeg1, startSeg2, hb]
  · simp [startSeg0, hb] at h

lemma bgStartRecording_eq_seg (s : BGState) (opts : RecOptions) (now : Nat)
    (h : bgStartSeg0 s = some s) :
    (bgStartRecording s opts now true).1
      = { s with isRecording := true, startTime := some now, badge := "REC" } := by
  cases hb : s.isRecording
  · simp [bgStartRecording, hb]
  · simp [bgStartSeg0, hb] at h

/-! ## Claims -/

/-- A start→pause→resume→stop run of the `services/recording-manager.js`
manager: capture starts at 0 ms; the user pauses at 5 s, resumes at 10 s
and stops at 15 s (pause/resume/stop never read the clock in the source,
so no time argument exists to pass them); the completion data arrives at
15 s. -/
def traceOpts : RecOptions :=
  { includeScreen := some true, includeAudio := some true
    includeSystemAudio := none, videoQuality := none, audioQuality := none }

def traceStart : RMResult := startRecording RMState.init traceOpts 0 true true

def tracePause : RMResult := pauseRecording traceStart.state

def traceResume : RMResult := resumeRecording tracePause.state

def traceStop : RMResult := stopRecording traceResume.state

def traceCompletion : CompletionOutcome :=
  handleRecordingData traceStop.state 15000 77 5 none 99 [] []

/-- Claim C1, code-bug evidence.  The claim says the duration computed at
completion equals wall-clock elapsed minus total paused seconds (here
15 − 5 = 10) and is frozen across paused segments.  On the code,
`pauseRecording` never accumulates `pausedTime` (it stays 0 for the whole
session), `getDuration` keeps advancing while paused (6 s and then 8 s one
second into the paused segment), and at completion — where `stopRecording`
has already cleared `isRecording`, so `getDuration` evaluates
`now = this.startTime` — the recorded duration is 0, not 10. -/
theorem duration_pause_code_bug :
    traceStart.ok = true ∧ tracePause.ok = true ∧ traceResume.ok = true ∧
    traceStop.ok = true ∧
    tracePause.state.pausedTime = 0 ∧
    tracePause.state.isPaused = true ∧
    getDuration tracePause.state 6000 = 6 ∧
    getDuration tracePause.state 8000 = 8 ∧
    traceCompletion.duration = 0 ∧
    traceCompletion.duration ≠ 10 := by
  decide

/-- A live recording session of the `services/recording-manager.js`
manager, and the corresponding `background.js` state with the `REC` badge
shown. -/
def recordingState : RMState :=
  { isRecording := true, isPaused := false, startTime := some 1000, pausedTime := 0 }

def secondStart : RMResult := startRecording recordingState traceOpts 2000 true true

def bgRecordingState : BGState :=
  { isRecording := true, startTime := some 1000, badge := "REC" }

/-- Claim C2, code-bug evidence.  A second `start` while Recording does
fail with AlreadyRecording, but it does not leave the state unchanged: the
`catch` block of `services/recording-manager.js` runs `cleanup()`, wiping
`isRecording`, `isPaused`, `startTime` and `pausedTime`; the `background.js`
variant likewise clears `isRecording`, blanks the badge and broadcasts
`updateRecordingStatus:false` to every tab. -/
theorem second_start_state_clobbered :
    secondStart.ok = false ∧
    secondStart.error = some RMError.alreadyRecording ∧
    secondStart.state ≠ recordingState ∧
    secondStart.state.startTime = none ∧
    secondStart.state.isRecording = false ∧
    bgStartRecording bgRecordingState traceOpts 2000 true
      = ({ isRecording := false, startTime := some 1000, badge := "" }, false,
         [BGEvent.notifyTabs false]) := by
  decide

/-- Start options selecting no capture source at all. -/
def noSourceOpts : RecOptions :=
  { includeScreen := some false, includeAudio := some false
    includeSystemAudio := some false, videoQuality := none, audioQuality := none }

/-- Claim C6, counterexample.  A start request with
`includeScreen=false, includeAudio=false` reaching the coordinator from
Idle is not rejected with InvalidOptions: the coordinator accepts it and
sends a `START_CAPTURE` command with the all-false source selection to the
Capture Surface. -/
theorem coordinator_accepts_no_source :
    (startRecording RMState.init noSourceOpts 0 true true).ok = true ∧
    (startRecording RMState.init noSourceOpts 0 true true).error = none ∧
    (startRecording RMState.init noSourceOpts 0 true true).cmds
      = [CaptureCmd.startCapture
          { includeScreen := false, includeAudio := false, includeSystemAudio := false
            videoQuality := Quality.medium, audioQuality := Quality.medium }] := by
  decide

/-- Claim C6, amended: the no-source validation lives in the popup
observer, not in the coordinator.  `PopupController.startRecording` rejects
a request with `includeScreen=false, includeAudio=false` inline, before any
message is sent towards the coordinator; the coordinator itself performs no
such validation and, invoked from Idle with both flags false, forwards the
all-false source selection to the Capture Surface without error. -/
theorem popup_validates_no_source (sysAudio : Bool) (now : Nat) :
    popupStartRecording false false sysAudio = PopupStartAction.rejectedNoSource ∧
    (startRecording RMState.init
        { includeScreen := some false, includeAudio := some false
          includeSystemAudio := some sysAudio, videoQuality := none, audioQuality := none }
        now true true).cmds
      = [CaptureCmd.startCapture
          { includeScreen := false, includeAudio := false, includeSystemAudio := sysAudio
            videoQuality := Quality.medium, audioQuality := Quality.medium }] ∧
    (startRecording RMState.init
        { includeScreen := some false, includeAudio := some false
          includeSystemAudio := some sysAudio, videoQuality := none, audioQuality := none }
        now true true).error = none := by
  exact ⟨rfl, rfl, rfl⟩

/-- The local-fallback record built by `handleRecordingData` when the
upload fails: `{id: local-…, ...metadata, isLocal:true, needsSync:true,
blob}`. -/
def localFallbackRec (freshId blob meta : Nat) : Rec :=
  { id := freshId, needsSync := true, isLocal := true, payload := some blob, meta := meta }

/-- Claim C7.  When the upload of a completed recording fails, completion
handling inserts exactly one new record at the head of the local
collection — `isLocal:true`, `needsSync:true`, payload retained — trims to
the 50-record cap, leaves the synced collection untouched, and emits the
"saved locally" notification; the completed recording itself is never
dropped. -/
theorem upload_failure_saves_locally
    (s : RMState) (now blob meta freshId : Nat) (localRecs synced : List Rec) :
    (handleRecordingData s now blob meta none freshId localRecs synced).localRecs
      = (localFallbackRec freshId blob meta :: localRecs).take 50 ∧
    (handleRecordingData s now blob meta none freshId localRecs synced).localRecs.head?
      = some (localFallbackRec freshId blob meta) ∧
    localFallbackRec freshId blob meta
      ∈ (handleRecordingData s now blob meta none freshId localRecs synced).localRecs ∧
    (handleRecordingData s now blob meta none freshId localRecs synced).localRecs.length
      = min (localRecs.length + 1) 50 ∧
    (handleRecordingData s now blob meta none freshId localRecs synced).synced = synced ∧
    (handleRecordingData s now blob meta none freshId localRecs synced).note
      = UserNote.savedLocally ∧
    (localFallbackRec freshId blob meta).needsSync = true ∧
    (localFallbackRec freshId blob meta).isLocal = true ∧
    (localFallbackRec freshId blob meta).payload = some blob := by
  have htake : (localFallbackRec freshId blob meta :: localRecs).take 50
      = localFallbackRec freshId blob meta :: localRecs.take 49 := rfl
  refine ⟨rfl, rfl, ?_, ?_, rfl, rfl, rfl, rfl, rfl⟩
  · show localFallbackRec freshId blob meta
      ∈ (localFallbackRec freshId blob meta :: localRecs).take 50
    rw [htake]
    exact List.mem_cons_self _ _
  · show ((localFallbackRec freshId blob meta :: localRecs).take 50).length
      = min (localRecs.length + 1) 50
    rw [List.length_take, List.length_cons, Nat.min_comm]

/-- Claim C8, code-bug evidence.  `startSeg0`/`bgStartSeg0` are exactly the
code either `startRecording` runs before its first `await`
(`ensureOffscreenDocument()`): the guard alone, writing nothing.  Both
embeddings show the transition is accepted (`some`) with the state
unchanged, so a status query issued right after acceptance still reports
Idle, and a second start interleaved at the suspension point (the `bind`)
passes the guard as well — two near-simultaneous starts can both observe
Idle.  The status flags are written only in `startSeg2`, after the capture
the `await` of the capture command resolves (`startRecording_eq_segments`). -/
theorem start_race_both_observe_idle :
    startSeg0 RMState.init = some RMState.init ∧
    (startSeg0 RMState.init).bind startSeg0 = some RMState.init ∧
    (getStatus RMState.init 0).isRecording = false ∧
    (startSeg1 RMState.init 0).isRecording = false ∧
    bgStartSeg0 BGState.init = some BGState.init ∧
    (bgStartSeg0 BGState.init).bind bgStartSeg0 = some BGState.init ∧
    BGState.init.badge = "" := by
  decide

/-- The empty options object `{}`. -/
def emptyOpts : RecOptions :=
  { includeScreen := none, includeAudio := none, includeSystemAudio := none
    videoQuality := none, audioQuality := none }

/-- Claim C9.  `startRecording({})` from Idle is not rejected by the
coordinator: missing fields are defaulted (`includeScreen`, `includeAudio`,
`includeSystemAudio` to `false`; both qualities to `"medium"`) before the
capture command is sent, and the all-false source selection is forwarded to
the Capture Surface whatever the surface then answers. -/
theorem start_defaults_filled (now : Nat) :
    (startRecording RMState.init emptyOpts now true true).ok = true ∧
    (startRecording RMState.init emptyOpts now true true).error = none ∧
    (startRecording RMState.init emptyOpts now true true).cmds
      = [CaptureCmd.startCapture
          { includeScreen := false, includeAudio := false, includeSystemAudio := false
            videoQuality := Quality.medium, audioQuality := Quality.medium }] ∧
    (startRecording RMState.init emptyOpts now true true).state
      = { isRecording := true, isPaused := false, startTime := some now, pausedTime := 0 } ∧
    (startRecording RMState.init emptyOpts now true true).startTimeReturned = some now ∧
    (∀ captureOk : Bool,
      (startRecording RMState.init emptyOpts now true captureOk).cmds
        = [CaptureCmd.startCapture
            { includeScreen := false, includeAudio := false, includeSystemAudio := false
              videoQuality := Quality.medium, audioQuality := Quality.medium }]) := by
  refine ⟨rfl, rfl, rfl, rfl, rfl, ?_⟩
  intro captureOk
  cases captureOk <;> rfl

/-! ## List helper lemmas for the reconciliation proofs -/

lemma map_congr_mem {α β : Type} (l : List α) (f g : α → β)
    (h : ∀ a ∈ l, f a = g a) : l.map f = l.map g := by
  induction l with
  | nil => rfl
  | cons a as ih =>
    simp only [List.map_cons]
    rw [h a (List.mem_cons_self a as), ih (fun x hx => h x (List.mem_cons_of_mem a hx))]

lemma take_eq_self_of_le {α : Type} : ∀ (l : List α) (n : Nat), l.length ≤ n → l.take n = l := by
  intro l
  induction l with
  | nil => intro n _; simp
  | cons a as ih =>
    intro n h
    cases n with
    | zero => simp at h
    | succ m =>
      simp only [List.take_succ_cons]
      rw [ih m (by simpa using h)]

/-- Pointwise effect of the sync loop on the working copy of the local
collection, for the list `pids` of pending ids being processed. -/
def markFn (upload : Rec → Option SRec) (pids : List Nat) (x : Rec) : Rec :=
  if x.id ∈ pids then
    match upload x with
    | some sr => markedRec sr
    | none => x
  else x

/-- Pointwise effect of one whole reconciliation run on the stored local
collection: a pending entry whose upload succeeds is replaced in place by
the marked server record; everything else is untouched. -/
def syncedMark (upload : Rec → Option SRec) (x : Rec) : Rec :=
  if x.needsSync then
    match upload x with
    | some sr => markedRec sr
    | none => x
  else x

lemma map_markFn_nil (upload : Rec → Option SRec) (L : List Rec) :
    L.map (markFn upload []) = L := by
  induction L with
  | nil => rfl
  | cons a as ih => simp [markFn, ih]

lemma map_subst_of_filter_nil (i : Nat) (n : Rec) :
    ∀ L : List Rec, L.filter (fun x => x.id = i) = [] →
      L.map (fun x => if x.id = i then n else x) = L := by
  intro L
  induction L with
  | nil => intro _; rfl
  | cons a as ih =>
    intro h
    by_cases ha : a.id = i
    · simp [List.filter_cons, ha] at h
    · simp only [List.filter_cons, decide_eq_true_eq, if_neg ha] at h
      simp only [List.map_cons, if_neg ha]
      rw [ih h]

lemma replaceFirst_eq_map (i : Nat) (n p : Rec) :
    ∀ L : List Rec, L.filter (fun x => x.id = i) = [p] →
      replaceFirstById L i n = L.map (fun x => if x.id = i then n else x) := by
  intro L
  induction L with
  | nil => intro h; simp at h
  | cons a as ih =>
    intro h
    by_cases ha : a.id = i
    · have h2 : as.filter (fun x => x.id = i) = [] := by
        simp only [List.filter_cons, decide_eq_true_eq, if_pos ha, List.cons.injEq] at h
        exact h.2
      simp only [replaceFirstById, if_pos ha, List.map_cons, if_pos ha]
      rw [map_subst_of_filter_nil i n as h2]
    · have h2 : as.filter (fun x => x.id = i) = [p] := by
        simpa only [List.filter_cons, decide_eq_true_eq, if_neg ha] using h
      simp only [replaceFirstById, if_neg ha, List.map_cons, if_neg ha]
      rw [ih h2]

lemma filter_map_subst (i j : Nat) (n : Rec) (hij : j ≠ i) (hnj : n.id ≠ j) :
    ∀ L : List Rec,
      (L.map (fun x => if x.id = i then n else x)).filter (fun x => x.id = j)
        = L.filter (fun x => x.id = j) := by
  intro L
  induction L with
  | nil => rfl
  | cons a as ih =>
    by_cases ha : a.id = i
    · have haj : ¬a.id = j := fun hh => hij (ha ▸ hh.symm ▸ rfl)
      simp only [List.map_cons, if_pos ha, List.filter_cons, decide_eq_true_eq,
        if_neg hnj, if_neg haj]
      exact ih
    · by_cases haj : a.id = j
      · simp only [List.map_cons, if_neg ha, List.filter_cons, decide_eq_true_eq,
          if_pos haj]
        rw [ih]
      · simp only [List.map_cons, if_neg ha, List.filter_cons, decide_eq_true_eq,
          if_neg haj]
        exact ih

lemma filter_id_singleton {p : Rec} :
    ∀ L : List Rec, (L.map (fun r => r.id)).Nodup → p ∈ L →
      L.filter (fun x => x.id = p.id) = [p] := by
  intro L
  induction L with
  | nil => intro _ hp; cases hp
  | cons a as ih =>
    intro hnd hp
    rw [List.map_cons, List.nodup_cons] at hnd
    obtain ⟨hna, hnd2⟩ := hnd
    by_cases ha : a.id = p.id
    · have hpa : p = a := by
        rcases List.mem_cons.mp hp with h | h
        · exact h
        · exact absurd (ha ▸ List.mem_map_of_mem (fun r => r.id) h) hna
      subst hpa
      have hrest : as.filter (fun x => x.id = p.id) = [] := by
        apply List.filter_eq_nil_iff.mpr
        intro x hx hxid
        have hxi : x.id = p.id := by simpa using hxid
        exact hna (hxi ▸ List.mem_map_of_mem (fun r => r.id) hx)
      simp [List.filter_cons, hrest]
    · have hpas : p ∈ as := by
        rcases List.mem_cons.mp hp with h | h
        · exact absurd (congrArg Rec.id h).symm ha
        · exact h
      simp only [List.filter_cons, decide_eq_true_eq, if_neg ha]
      exact ih hnd2 hpas

lemma eq_of_mem_id_eq {L : List Rec} (hnd : (L.map (fun r => r.id)).Nodup)
    {x q : Rec} (hx : x ∈ L) (hq : q ∈ L) (h : x.id = q.id) : x = q := by
  have hf := filter_id_singleton L hnd hq
  have hmem : x ∈ L.filter (fun y => y.id = q.id) :=
    List.mem_filter.mpr ⟨hx, by simp [h]⟩
  rw [hf] at hmem
  simpa using hmem

lemma mem_replaceFirstById {x : Rec} (i : Nat) (n : Rec) :
    ∀ l : List Rec, x ∈ replaceFirstById l i n → x = n ∨ x ∈ l := by
  intro l
  induction l with
  | nil => intro h; cases h
  | cons a as ih =>
    intro h
    by_cases ha : a.id = i
    · rw [replaceFirstById, if_pos ha] at h
      rcases List.mem_cons.mp h with h2 | h2
      · exact Or.inl h2
      · exact Or.inr (List.mem_cons_of_mem _ h2)
    · rw [replaceFirstById, if_neg ha] at h
      rcases List.mem_cons.mp h with h2 | h2
      · exact Or.inr (h2 ▸ List.mem_cons_self _ _)
      · rcases ih h2 with h3 | h3
        · exact Or.inl h3
        · exact Or.inr (List.mem_cons_of_mem _ h3)

/-! ## Sync-loop lemmas -/

lemma syncLoop_count (upload : Rec → Option SRec) :
    ∀ (P : List Rec) (st : LoopState),
      (syncLoop upload P st).count
        = st.count + (P.filter (fun p => (upload p).isSome)).length := by
  intro P
  induction P with
  | nil => intro st; simp [syncLoop]
  | cons p rest ih =>
    intro st
    cases hup : upload p with
    | none => simp [syncLoop, hup, ih]
    | some sr =>
      simp only [syncLoop, hup, ih, List.filter_cons, Option.isSome_some, if_pos]
      simp [List.length_cons]
      omega

lemma syncLoop_updated (upload : Rec → Option SRec) :
    ∀ (P : List Rec) (st : LoopState),
      (∀ p ∈ P, st.updated.filter (fun x => x.id = p.id) = [p]) →
      (∀ p ∈ P, ∀ sr, upload p = some sr → ∀ q ∈ P, sr.id ≠ q.id) →
      ((P.map (fun r => r.id)).Nodup) →
      (syncLoop upload P st).updated
        = st.updated.map (markFn upload (P.map (fun r => r.id))) := by
  intro P
  induction P with
  | nil =>
    intro st _ _ _
    rw [List.map_nil, map_markFn_nil]
    rfl
  | cons p rest ih =>
    intro st hone hfresh hnd
    rw [List.map_cons, List.nodup_cons] at hnd
    obtain ⟨hpid, hnd2⟩ := hnd
    have hfilter := hone p (List.mem_cons_self p rest)
    cases hup : upload p with
    | none =>
      have hstep : syncLoop upload (p :: rest) st = syncLoop upload rest st := by
        simp [syncLoop, hup]
      rw [hstep]
      rw [ih st (fun q hq => hone q (List.mem_cons_of_mem p hq))
        (fun q hq sr hsr q2 hq2 =>
          hfresh q (List.mem_cons_of_mem p hq) sr hsr q2 (List.mem_cons_of_mem p hq2))
        hnd2]
      apply map_congr_mem
      intro x hx
      by_cases hxid : x.id = p.id
      · have hxp : x = p := by
          have hmem : x ∈ st.updated.filter (fun y => y.id = p.id) :=
            List.mem_filter.mpr ⟨hx, by simp [hxid]⟩
          rw [hfilter] at hmem
          simpa using hmem
        subst hxp
        have hnotin : ¬x.id ∈ rest.map (fun r => r.id) := hpid
        simp [markFn, hnotin, hup]
      · simp [markFn, List.mem_cons, hxid]
    | some sr =>
      have hsrfresh : ∀ q ∈ p :: rest, sr.id ≠ q.id :=
        hfresh p (List.mem_cons_self p rest) sr hup
      have hstep : syncLoop upload (p :: rest) st
          = syncLoop upload rest
              { updated := replaceFirstById st.updated p.id (markedRec sr)
                synced := addRecording st.synced (storedOfServer sr)
                count := st.count + 1 } := by
        simp [syncLoop, hup]
      rw [hstep]
      have hrepl : replaceFirstById st.updated p.id (markedRec sr)
          = st.updated.map (fun x => if x.id = p.id then markedRec sr else x) :=
        replaceFirst_eq_map p.id (markedRec sr) p st.updated hfilter
      have hone2 : ∀ q ∈ rest,
          (replaceFirstById st.updated p.id (markedRec sr)).filter
              (fun x => x.id = q.id) = [q] := by
        intro q hq
        rw [hrepl]
        have hqp : q.id ≠ p.id := by
          intro hh
          exact hpid (hh ▸ List.mem_map_of_mem (fun r => r.id) hq)
        have hsq : (markedRec sr).id ≠ q.id :=
          fun hh => hsrfresh q (List.mem_cons_of_mem p hq) hh
        rw [filter_map_subst p.id q.id (markedRec sr) hqp hsq st.updated]
        exact hone q (List.mem_cons_of_mem p hq)
      rw [ih _ hone2
        (fun q hq sr2 hsr2 q2 hq2 =>
          hfresh q (List.mem_cons_of_mem p hq) sr2 hsr2 q2 (List.mem_cons_of_mem p hq2))
        hnd2]
      rw [hrepl, List.map_map]
      apply map_congr_mem
      intro x hx
      by_cases hxid : x.id = p.id
      · have hxp : x = p := by
          have hmem : x ∈ st.updated.filter (fun y => y.id = p.id) :=
            List.mem_filter.mpr ⟨hx, by simp [hxid]⟩
          rw [hfilter] at hmem
          simpa using hmem
        subst hxp
        have hsrnotin : ¬(markedRec sr).id ∈ rest.map (fun r => r.id) := by
          intro hmem
          rcases List.mem_map.mp hmem with ⟨q, hq, hqid⟩
          exact hsrfresh q (List.mem_cons_of_mem _ hq) hqid.symm
        simp [Function.comp, markFn, hxid, hsrnotin, hup]
      · simp [Function.comp, markFn, List.mem_cons, hxid]

lemma syncLoop_synced (upload : Rec → Option SRec) :
    ∀ (P : List Rec) (st : LoopState),
      st.synced.length + (P.filterMap upload).length ≤ 100 →
      (syncLoop upload P st).synced
        = ((P.filterMap upload).map storedOfServer).reverse ++ st.synced := by
  intro P
  induction P with
  | nil => intro st _; simp [syncLoop]
  | cons p rest ih =>
    intro st hcap
    cases hup : upload p with
    | none =>
      have hstep : syncLoop upload (p :: rest) st = syncLoop upload rest st := by
        simp [syncLoop, hup]
      rw [hstep, ih st (by simpa [List.filterMap_cons, hup] using hcap)]
      simp [List.filterMap_cons, hup]
    | some sr =>
      simp only [List.filterMap_cons, hup] at hcap ⊢
      have hcap2 : st.synced.length + 1 + (rest.filterMap upload).length ≤ 100 := by
        simpa [Nat.add_comm, Nat.add_left_comm] using hcap
      have htake : addRecording st.synced (storedOfServer sr)
          = storedOfServer sr :: st.synced := by
        apply take_eq_self_of_le
        simp only [List.length_cons]
        omega
      have hstep : syncLoop upload (p :: rest) st
          = syncLoop upload rest
              { updated := replaceFirstById st.updated p.id (markedRec sr)
                synced := addRecording st.synced (storedOfServer sr)
                count := st.count + 1 } := by
        simp [syncLoop, hup]
      rw [hstep, ih _ (by simp only [htake, List.length_cons]; omega)]
      simp [htake, List.reverse_cons, List.append_assoc]

lemma syncLoop_inv (upload : Rec → Option SRec) (inv : Rec → Bool)
    (hmarked : ∀ sr, inv (markedRec sr) = true)
    (hstored : ∀ sr, inv (storedOfServer sr) = true) :
    ∀ (P : List Rec) (st : LoopState),
      st.updated.all inv = true → st.synced.all inv = true →
      (syncLoop upload P st).updated.all inv = true ∧
      (syncLoop upload P st).synced.all inv = true := by
  intro P
  induction P with
  | nil => intro st h1 h2; exact ⟨h1, h2⟩
  | cons p rest ih =>
    intro st h1 h2
    cases hup : upload p with
    | none =>
      have hstep : syncLoop upload (p :: rest) st = syncLoop upload rest st := by
        simp [syncLoop, hup]
      rw [hstep]
      exact ih st h1 h2
    | some sr =>
      have hstep : syncLoop upload (p :: rest) st
          = syncLoop upload rest
              { updated := replaceFirstById st.updated p.id (markedRec sr)
                synced := addRecording st.synced (storedOfServer sr)
                count := st.count + 1 } := by
        simp [syncLoop, hup]
      rw [hstep]
      apply ih
      · rw [List.all_eq_true] at h1 ⊢
        intro x hx
        rcases mem_replaceFirstById p.id (markedRec sr) st.updated hx with h | h
        · exact h ▸ hmarked sr
        · exact h1 x h
      · rw [List.all_eq_true] at h2 ⊢
        intro x hx
        have hx2 : x ∈ storedOfServer sr :: st.synced := List.take_subset _ _ hx
        rcases List.mem_cons.mp hx2 with h | h
        · exact h ▸ hstored sr
        · exact h2 x h

/-! ## Top-level reconciliation facts -/

/-- Environment assumption on server-assigned ids: when the upload of a
pending record succeeds, the id the server assigns does not collide with
any id already stored in the local collection. -/
def serverIdsFresh (upload : Rec → Option SRec) (l : List Rec) : Bool :=
  l.all fun p =>
    !p.needsSync ||
      (match upload p with
       | some sr => decide (sr.id ∉ l.map (fun r => r.id))
       | none => true)

lemma serverIdsFresh_spec {upload : Rec → Option SRec} {l : List Rec}
    (h : serverIdsFresh upload l = true) :
    ∀ p ∈ l, p.needsSync = true → ∀ sr, upload p = some sr →
      sr.id ∉ l.map (fun r => r.id) := by
  intro p hp hns sr hup
  have hall := List.all_eq_true.mp h p hp
  rw [hns, hup] at hall
  simpa using hall

/-- Under unique local ids and fresh server ids, one reconciliation run
rewrites the stored local collection pointwise by `syncedMark` and counts
exactly the successful uploads among the pending records. -/
lemma syncPending_spec (upload : Rec → Option SRec) (localRecs synced : List Rec)
    (hnd : (localRecs.map (fun r => r.id)).Nodup)
    (hfresh : serverIdsFresh upload localRecs = true) :
    (syncPendingRecordings upload localRecs synced).success = true ∧
    (syncPendingRecordings upload localRecs synced).syncedCount
      = ((pendingOf localRecs).filter (fun p => (upload p).isSome)).length ∧
    (syncPendingRecordings upload localRecs synced).localRecs
      = localRecs.map (syncedMark upload) := by
  cases hP : pendingOf localRecs with
  | nil =>
    refine ⟨by simp [syncPendingRecordings, hP], by simp [syncPendingRecordings, hP], ?_⟩
    have hid : localRecs.map (syncedMark upload) = localRecs := by
      apply Eq.trans (map_congr_mem localRecs _ id ?_) (List.map_id localRecs)
      intro x hx
      have hxns : ¬x.needsSync = true := by
        intro hns
        have : x ∈ pendingOf localRecs := List.mem_filter.mpr ⟨hx, by simp [hns]⟩
        rw [hP] at this
        cases this
      simp [syncedMark, Bool.eq_false_iff.mpr hxns]
    simp [syncPendingRecordings, hP, hid]
  | cons q qs =>
    have hone : ∀ p ∈ pendingOf localRecs,
        localRecs.filter (fun x => x.id = p.id) = [p] := fun p hp =>
      filter_id_singleton localRecs hnd (List.mem_of_mem_filter hp)
    have hfresh2 : ∀ p ∈ pendingOf localRecs, ∀ sr, upload p = some sr →
        ∀ q2 ∈ pendingOf localRecs, sr.id ≠ q2.id := by
      intro p hp sr hup q2 hq2 heq
      have hpl := List.mem_of_mem_filter hp
      have hql := List.mem_of_mem_filter hq2
      have hpns : p.needsSync = true := by simpa using List.of_mem_filter hp
      exact serverIdsFresh_spec hfresh p hpl hpns sr hup
        (heq ▸ List.mem_map_of_mem (fun r => r.id) hql)
    have hndP : ((pendingOf localRecs).map (fun r => r.id)).Nodup :=
      hnd.sublist ((List.filter_sublist localRecs).map (fun r => r.id))
    have hupd := syncLoop_updated upload (pendingOf localRecs)
      { updated := localRecs, synced := synced, count := 0 } hone hfresh2 hndP
    have hcnt := syncLoop_count upload (pendingOf localRecs)
      { updated := localRecs, synced := synced, count := 0 }
    have hmarks : localRecs.map (markFn upload ((pendingOf localRecs).map (fun r => r.id)))
        = localRecs.map (syncedMark upload) := by
      apply map_congr_mem
      intro x hx
      by_cases hxs : x.needsSync = true
      · have hxp : x ∈ pendingOf localRecs := List.mem_filter.mpr ⟨hx, by simp [hxs]⟩
        have hxid : x.id ∈ (pendingOf localRecs).map (fun r => r.id) :=
          List.mem_map_of_mem (fun r => r.id) hxp
        simp [markFn, syncedMark, hxid, hxs]
      · have hxid : ¬x.id ∈ (pendingOf localRecs).map (fun r => r.id) := by
          intro hmem
          rcases List.mem_map.mp hmem with ⟨q2, hq2, hq2id⟩
          have hq2l := List.mem_of_mem_filter hq2
          have : q2 = x := eq_of_mem_id_eq hnd hq2l hx hq2id
          have hq2ns : q2.needsSync = true := by simpa using List.of_mem_filter hq2
          exact hxs (this ▸ hq2ns)
        simp [markFn, syncedMark, hxid, Bool.eq_false_iff.mpr hxs]
    rw [hP] at hcnt hupd hmarks
    refine ⟨by simp [syncPendingRecordings, hP], ?_, ?_⟩
    · show (syncPendingRecordings upload localRecs synced).syncedCount = _
      simp [syncPendingRecordings, hP, hcnt]
    · show (syncPendingRecordings upload localRecs synced).localRecs = _
      have hgoal : (syncPendingRecordings upload localRecs synced).localRecs
          = (syncLoop upload (q :: qs)
              { updated := localRecs, synced := synced, count := 0 }).updated := by
        simp [syncPendingRecordings, hP]
      rw [hgoal, hupd]
      exact hmarks

/-- When the synced collection stays below its 100-record cap, one
reconciliation run prepends (newest first) the server records of the
successful uploads to the synced collection. -/
lemma syncPending_synced_eq (upload : Rec → Option SRec) (localRecs synced : List Rec)
    (hcap : synced.length + ((pendingOf localRecs).filterMap upload).length ≤ 100) :
    (syncPendingRecordings upload localRecs synced).synced
      = (((pendingOf localRecs).filterMap upload).map storedOfServer).reverse ++ synced := by
  cases hP : pendingOf localRecs with
  | nil => simp [syncPendingRecordings, hP]
  | cons q qs =>
    have hsy := syncLoop_synced upload (pendingOf localRecs)
      { updated := localRecs, synced := synced, count := 0 } (by simpa using hcap)
    rw [hP] at hsy
    simp [syncPendingRecordings, hP, hsy]

/-- Claim C3.  One reconciliation run over a local collection with N
pending records of which K uploads succeed returns `{success:true,
synced:K}`; the stored local collection is rewritten pointwise: each of the
K succeeded records is replaced by its marked server record
(`needsSync:false`), every other record — failed uploads included — is left
untouched with `needsSync` still `true`; no single failure aborts the
batch.  Hypotheses: stored ids are unique and server-assigned ids are
fresh. -/
theorem sync_mixed_batch_outcome (upload : Rec → Option SRec) (localRecs synced : List Rec)
    (hnd : (localRecs.map (fun r => r.id)).Nodup)
    (hfresh : serverIdsFresh upload localRecs = true) :
    (syncPendingRecordings upload localRecs synced).success = true ∧
    (syncPendingRecordings upload localRecs synced).syncedCount
      = ((pendingOf localRecs).filter (fun p => (upload p).isSome)).length ∧
    (syncPendingRecordings upload localRecs synced).localRecs
      = localRecs.map (syncedMark upload) :=
  syncPending_spec upload localRecs synced hnd hfresh

/-- Witness records: two pending local records (only the first upload
succeeds) and one already-synced record. -/
def wUpload : Rec → Option SRec :=
  fun r => if r.id = 1 then some { id := 101, meta := r.meta } else none

def wLocal : List Rec :=
  [ { id := 1, needsSync := true, isLocal := true, payload := some 11, meta := 5 },
    { id := 2, needsSync := true, isLocal := true, payload := some 12, meta := 6 },
    { id := 3, needsSync := false, isLocal := false, payload := none, meta := 7 } ]

theorem sync_mixed_batch_outcome_witness :
    (syncPendingRecordings wUpload wLocal []).success = true ∧
    (syncPendingRecordings wUpload wLocal []).syncedCount
      = ((pendingOf wLocal).filter (fun p => (wUpload p).isSome)).length ∧
    (syncPendingRecordings wUpload wLocal []).localRecs
      = wLocal.map (syncedMark wUpload) :=
  sync_mixed_batch_outcome wUpload wLocal [] (by decide) (by decide)

/-- Claim C4, counterexample.  After a reconciliation in which the upload
of the single pending record succeeds with server id 101, that id appears
in *both* collections: the sync replaced the local entry in place (instead
of removing it) and additionally inserted the server record into the synced
collection — the collections are not disjoint by id. -/
theorem sync_collections_not_disjoint :
    101 ∈ (syncPendingRecordings wUpload
        [{ id := 1, needsSync := true, isLocal := true, payload := some 11, meta := 5 }]
        []).localRecs.map (fun r => r.id) ∧
    101 ∈ (syncPendingRecordings wUpload
        [{ id := 1, needsSync := true, isLocal := true, payload := some 11, meta := 5 }]
        []).synced.map (fun r => r.id) := by
  decide

/-- Claim C4, amended.  For every record whose upload succeeds during
reconciliation, its original id disappears from the local collection, but
the entry is replaced in place by the server-assigned record
(`needsSync:false`, `isLocal:false`, payload removed) rather than deleted,
and the raw server record is additionally inserted into the synced
collection — so the server-assigned id appears in both collections
afterwards; the two collections are not kept disjoint. -/
theorem sync_replaces_in_place (upload : Rec → Option SRec) (localRecs synced : List Rec)
    (hnd : (localRecs.map (fun r => r.id)).Nodup)
    (hfresh : serverIdsFresh upload localRecs = true)
    (hcap : synced.length + ((pendingOf localRecs).filterMap upload).length ≤ 100)
    (p : Rec) (hp : p ∈ localRecs) (hns : p.needsSync = true)
    (sr : SRec) (hup : upload p = some sr) :
    ((syncPendingRecordings upload localRecs synced).localRecs.all
        (fun x => x.id != p.id)) = true ∧
    markedRec sr ∈ (syncPendingRecordings upload localRecs synced).localRecs ∧
    storedOfServer sr ∈ (syncPendingRecordings upload localRecs synced).synced := by
  have hloc := (syncPending_spec upload localRecs synced hnd hfresh).2.2
  have hpidmem : p.id ∈ localRecs.map (fun r => r.id) :=
    List.mem_map_of_mem (fun r => r.id) hp
  refine ⟨?_, ?_, ?_⟩
  · rw [hloc, List.all_eq_true]
    intro x hx
    rcases List.mem_map.mp hx with ⟨y, hy, hyx⟩
    rw [bne_iff_ne]
    intro hxp
    rw [← hyx] at hxp
    by_cases hys : y.needsSync = true
    · cases hyup : upload y with
      | none =>
        have hyid : y.id = p.id := by simpa [syncedMark, hys, hyup] using hxp
        have : y = p := eq_of_mem_id_eq hnd hy hp hyid
        rw [this, hup] at hyup
        cases hyup
      | some sr2 =>
        have hsid : sr2.id = p.id := by simpa [syncedMark, hys, hyup, markedRec] using hxp
        exact serverIdsFresh_spec hfresh y hy hys sr2 hyup (hsid ▸ hpidmem)
    · have hyid : y.id = p.id := by
        simpa [syncedMark, Bool.eq_false_iff.mpr hys] using hxp
      have hyp : y = p := eq_of_mem_id_eq hnd hy hp hyid
      exact hys (hyp ▸ hns)
  · rw [hloc]
    have himg : syncedMark upload p = markedRec sr := by simp [syncedMark, hns, hup]
    exact himg ▸ List.mem_map_of_mem (syncedMark upload) hp
  · rw [syncPending_synced_eq upload localRecs synced hcap]
    have hpp : p ∈ pendingOf localRecs := List.mem_filter.mpr ⟨hp, by simp [hns]⟩
    have hsrmem : sr ∈ (pendingOf localRecs).filterMap upload :=
      List.mem_filterMap.mpr ⟨p, hpp, hup⟩
    have : storedOfServer sr
        ∈ (((pendingOf localRecs).filterMap upload).map storedOfServer).reverse := by
      rw [List.mem_reverse]
      exact List.mem_map_of_mem storedOfServer hsrmem
    exact List.mem_append_left _ this

theorem sync_replaces_in_place_witness :
    ((syncPendingRecordings wUpload wLocal []).localRecs.all
        (fun x => x.id != (1 : Nat))) = true ∧
    markedRec { id := 101, meta := 5 } ∈ (syncPendingRecordings wUpload wLocal []).localRecs ∧
    storedOfServer { id := 101, meta := 5 } ∈ (syncPendingRecordings wUpload wLocal []).synced :=
  sync_replaces_in_place wUpload wLocal [] (by decide) (by decide) (by decide)
    { id := 1, needsSync := true, isLocal := true, payload := some 11, meta := 5 }
    (by decide) (by decide) { id := 101, meta := 5 } (by decide)

/-- The payload-retention invariant of a stored record: a record that no
longer needs sync carries no retained payload. -/
def recInvB (r : Rec) : Bool := r.needsSync || r.payload.isNone

/-- Claim C5.  Both completion handling (either outcome of the upload) and
pending-sync reconciliation preserve the invariant that no record is ever
simultaneously `needsSync:false` and carrying a retained payload: a
successful upload stores the payload-free server record and the in-place
replacement deletes the `blob` field the instant the upload succeeds. -/
theorem no_synced_record_retains_payload
    (upload : Rec → Option SRec) (s : RMState)
    (now blob meta freshId : Nat) (uploadOutcome : Option SRec)
    (localRecs synced : List Rec)
    (h1 : localRecs.all recInvB = true) (h2 : synced.all recInvB = true) :
    ((handleRecordingData s now blob meta uploadOutcome freshId localRecs synced).localRecs.all
        recInvB = true ∧
     (handleRecordingData s now blob meta uploadOutcome freshId localRecs synced).synced.all
        recInvB = true) ∧
    ((syncPendingRecordings upload localRecs synced).localRecs.all recInvB = true ∧
     (syncPendingRecordings upload localRecs synced).synced.all recInvB = true) := by
  constructor
  · cases uploadOutcome with
    | some sr =>
      refine ⟨h1, ?_⟩
      rw [List.all_eq_true] at h2 ⊢
      intro x hx
      have hx2 : x ∈ storedOfServer sr :: synced := List.take_subset _ _ hx
      rcases List.mem_cons.mp hx2 with h | h
      · exact h ▸ rfl
      · exact h2 x h
    | none =>
      refine ⟨?_, h2⟩
      rw [List.all_eq_true] at h1 ⊢
      intro x hx
      have hx2 : x ∈ localFallbackRec freshId blob meta :: localRecs :=
        List.take_subset _ _ hx
      rcases List.mem_cons.mp hx2 with h | h
      · exact h ▸ rfl
      · exact h1 x h
  · cases hP : pendingOf localRecs with
    | nil =>
      constructor
      · have hgoal : (syncPendingRecordings upload localRecs synced).localRecs
            = localRecs := by simp [syncPendingRecordings, hP]
        rw [hgoal]
        exact h1
      · have hgoal : (syncPendingRecordings upload localRecs synced).synced
            = synced := by simp [syncPendingRecordings, hP]
        rw [hgoal]
        exact h2
    | cons q qs =>
      have hinv := syncLoop_inv upload recInvB (fun _ => rfl) (fun _ => rfl)
        (pendingOf localRecs) { updated := localRecs, synced := synced, count := 0 } h1 h2
      rw [hP] at hinv
      constructor
      · have hgoal : (syncPendingRecordings upload localRecs synced).localRecs
            = (syncLoop upload (q :: qs)
                { updated := localRecs, synced := synced, count := 0 }).updated := by
          simp [syncPendingRecordings, hP]
        rw [hgoal]
        exact hinv.1
      · have hgoal : (syncPendingRecordings upload localRecs synced).synced
            = (syncLoop upload (q :: qs)
                { updated := localRecs, synced := synced, count := 0 }).synced := by
          simp [syncPendingRecordings, hP]
        rw [hgoal]
        exact hinv.2

theorem no_synced_record_retains_payload_witness :
    ((handleRecordingData RMState.init 0 11 5 none 9 wLocal []).localRecs.all
        recInvB = true ∧
     (handleRecordingData RMState.init 0 11 5 none 9 wLocal []).synced.all
        recInvB = true) ∧
    ((syncPendingRecordings wUpload wLocal []).localRecs.all recInvB = true ∧
     (syncPendingRecordings wUpload wLocal []).synced.all recInvB = true) :=
  no_synced_record_retains_payload wUpload RMState.init 0 11 5 9 none wLocal []
    (by decide) (by decide)

/-- Claim C10.  When no stored local record needs sync, one reconciliation
run returns `{success:true, synced:0}` immediately: no upload is attempted,
no storage write is performed, and both collections are returned exactly as
they were. -/
theorem sync_noop_when_no_pending (upload : Rec → Option SRec)
    (localRecs synced : List Rec)
    (h : ∀ r ∈ localRecs, r.needsSync = false) :
    syncPendingRecordings upload localRecs synced =
      { localRecs := localRecs, synced := synced, syncedCount := 0
        success := true, uploadsAttempted := [], storageWrites := 0 } := by
  have hnil : pendingOf localRecs = [] := by
    apply List.filter_eq_nil_iff.mpr
    intro a ha
    simp [h a ha]
  simp [syncPendingRecordings, hnil]

/-- A local collection with nothing pending. -/
def wNoPending : Rec :=
  { id := 4, needsSync := false, isLocal := false, payload := none, meta := 8 }

theorem sync_noop_when_no_pending_witness :
    syncPendingRecordings wUpload [wNoPending] [] =
      { localRecs := [wNoPending], synced := [], syncedCount := 0
        success := true, uploadsAttempted := [], storageWrites := 0 } :=
  sync_noop_when_no_pending wUpload [wNoPending] [] (by decide)

end MeetingRecorder
